import Mathlib

set_option maxRecDepth 100000

/-!
Verification of the pyoath OTP core (`pyoath.py`) against its specification.

The embedding models bytes as `Nat` values below 256 and byte strings as
`List Nat`.  The hash primitives (SHA-1, SHA-256, SHA-512, MD5) that the
Python code obtains from `hashlib` are implemented here in full, so that the
RFC 4226 / RFC 6238 test vectors can be checked by kernel evaluation.
Fallible Python operations (`struct.unpack`, `struct.pack`, division) are
modelled with `Option`.
-/

/-- 32-bit truncation, modelling arithmetic on 32-bit words. -/
def mask32 (x : Nat) : Nat := x &&& 0xffffffff

/-- Left rotation of a 32-bit word by `s` bits. -/
def rotl32 (s x : Nat) : Nat := mask32 ((x <<< s) ||| (x >>> (32 - s)))

/-- Group a byte list into big-endian 32-bit words, four bytes at a time. -/
def beWords4 : List Nat → List Nat
  | b0 :: b1 :: b2 :: b3 :: rest =>
      ((b0 <<< 24) ||| (b1 <<< 16) ||| (b2 <<< 8) ||| b3) :: beWords4 rest
  | _ => []

/-- The 8-byte big-endian encoding of `n` (used by `struct.pack` with a
big-endian unsigned 64-bit format and by SHA padding). -/
def w64be (n : Nat) : List Nat :=
  [(n >>> 56) &&& 0xff, (n >>> 48) &&& 0xff, (n >>> 40) &&& 0xff,
   (n >>> 32) &&& 0xff, (n >>> 24) &&& 0xff, (n >>> 16) &&& 0xff,
   (n >>> 8) &&& 0xff, n &&& 0xff]

/-- The 4-byte big-endian encoding of a 32-bit word. -/
def w32be (w : Nat) : List Nat :=
  [(w >>> 24) &&& 0xff, (w >>> 16) &&& 0xff, (w >>> 8) &&& 0xff, w &&& 0xff]

/-- Merkle–Damgård padding with a 64-bit big-endian length field: append
`0x80`, zero bytes up to 56 mod 64, then the bit length. -/
def padBE64 (msg : List Nat) : List Nat :=
  msg ++ 0x80 :: List.replicate ((119 - msg.length % 64) % 64) 0
      ++ w64be (msg.length * 8)

/-- SHA-1 message-schedule extension, accumulating words most recent first. -/
def sha1ExtendRev : Nat → List Nat → List Nat
  | 0, acc => acc
  | f + 1, acc =>
      let w := rotl32 1 ((acc.getD 2 0) ^^^ (acc.getD 7 0) ^^^
                         (acc.getD 13 0) ^^^ (acc.getD 15 0))
      sha1ExtendRev f (w :: acc)

/-- SHA-1 round function, by round index. -/
def sha1F (i b c d : Nat) : Nat :=
  if i < 20 then (b &&& c) ||| ((b ^^^ 0xffffffff) &&& d)
  else if i < 40 then b ^^^ c ^^^ d
  else if i < 60 then (b &&& c) ||| (b &&& d) ||| (c &&& d)
  else b ^^^ c ^^^ d

/-- SHA-1 round constant, by round index. -/
def sha1KC (i : Nat) : Nat :=
  if i < 20 then 0x5a827999
  else if i < 40 then 0x6ed9eba1
  else if i < 60 then 0x8f1bbcdc
  else 0xca62c1d6

/-- The 80 SHA-1 rounds over a schedule word list. -/
def sha1Rounds : Nat → Nat × Nat × Nat × Nat × Nat → List Nat →
    Nat × Nat × Nat × Nat × Nat
  | _, st, [] => st
  | i, (a, b, c, d, e), w :: ws =>
      let t := mask32 (rotl32 5 a + sha1F i b c d + e + sha1KC i + w)
      sha1Rounds (i + 1) (t, a, rotl32 30 b, c, d) ws

/-- SHA-1 compression of one 64-byte block into the chaining state. -/
def sha1Compress (st : Nat × Nat × Nat × Nat × Nat) (block : List Nat) :
    Nat × Nat × Nat × Nat × Nat :=
  let ws := (sha1ExtendRev 64 (beWords4 block).reverse).reverse
  let r := sha1Rounds 0 st ws
  (mask32 (st.1 + r.1), mask32 (st.2.1 + r.2.1), mask32 (st.2.2.1 + r.2.2.1),
   mask32 (st.2.2.2.1 + r.2.2.2.1), mask32 (st.2.2.2.2 + r.2.2.2.2))

/-- Fold SHA-1 compression over consecutive 64-byte blocks (fuelled). -/
def sha1Blocks : Nat → Nat × Nat × Nat × Nat × Nat → List Nat →
    Nat × Nat × Nat × Nat × Nat
  | 0, st, _ => st
  | _, st, [] => st
  | f + 1, st, l => sha1Blocks f (sha1Compress st (l.take 64)) (l.drop 64)

/-- SHA-1 of a byte string, as the 20-byte digest. -/
def sha1 (msg : List Nat) : List Nat :=
  let p := padBE64 msg
  let h := sha1Blocks p.length
      (0x67452301, 0xefcdab89, 0x98badcfe, 0x10325476, 0xc3d2e1f0) p
  w32be h.1 ++ w32be h.2.1 ++ w32be h.2.2.1 ++ w32be h.2.2.2.1 ++
    w32be h.2.2.2.2

/-- Group a byte list into little-endian 32-bit words (MD5 convention). -/
def leWords4 : List Nat → List Nat
  | b0 :: b1 :: b2 :: b3 :: rest =>
      (b0 ||| (b1 <<< 8) ||| (b2 <<< 16) ||| (b3 <<< 24)) :: leWords4 rest
  | _ => []

/-- The 4-byte little-endian encoding of a 32-bit word. -/
def w32le (w : Nat) : List Nat :=
  [w &&& 0xff, (w >>> 8) &&& 0xff, (w >>> 16) &&& 0xff, (w >>> 24) &&& 0xff]

/-- The 8-byte little-endian encoding of `n` (MD5 length field). -/
def w64le (n : Nat) : List Nat :=
  [n &&& 0xff, (n >>> 8) &&& 0xff, (n >>> 16) &&& 0xff, (n >>> 24) &&& 0xff,
   (n >>> 32) &&& 0xff, (n >>> 40) &&& 0xff, (n >>> 48) &&& 0xff,
   (n >>> 56) &&& 0xff]

/-- MD5 padding: like SHA-1 but the length field is little-endian. -/
def padLE64 (msg : List Nat) : List Nat :=
  msg ++ 0x80 :: List.replicate ((119 - msg.length % 64) % 64) 0
      ++ w64le (msg.length * 8)

/-- The 64 MD5 additive constants, `floor(2^32 * abs(sin(i + 1)))`. -/
def md5K : List Nat := [
  3614090360, 3905402710, 606105819, 3250441966, 4118548399,
  1200080426, 2821735955, 4249261313, 1770035416, 2336552879,
  4294925233, 2304563134, 1804603682, 4254626195, 2792965006,
  1236535329, 4129170786, 3225465664, 643717713, 3921069994,
  3593408605, 38016083, 3634488961, 3889429448, 568446438,
  3275163606, 4107603335, 1163531501, 2850285829, 4243563512,
  1735328473, 2368359562, 4294588738, 2272392833, 1839030562,
  4259657740, 2763975236, 1272893353, 4139469664, 3200236656,
  681279174, 3936430074, 3572445317, 76029189, 3654602809,
  3873151461, 530742520, 3299628645, 4096336452, 1126891415,
  2878612391, 4237533241, 1700485571, 2399980690, 4293915773,
  2240044497, 1873313359, 4264355552, 2734768916, 1309151649,
  4149444226, 3174756917, 718787259, 3951481745]

/-- The MD5 per-round left-rotation amounts. -/
def md5S : List Nat := [
  7, 12, 17, 22, 7, 12, 17, 22, 7, 12, 17, 22, 7, 12, 17, 22,
  5, 9, 14, 20, 5, 9, 14, 20, 5, 9, 14, 20, 5, 9, 14, 20,
  4, 11, 16, 23, 4, 11, 16, 23, 4, 11, 16, 23, 4, 11, 16, 23,
  6, 10, 15, 21, 6, 10, 15, 21, 6, 10, 15, 21, 6, 10, 15, 21]

/-- The 64 MD5 rounds over the block words `m` (fuelled, `i` ascending). -/
def md5Rounds (m : List Nat) : Nat → Nat → Nat × Nat × Nat × Nat →
    Nat × Nat × Nat × Nat
  | 0, _, st => st
  | n + 1, i, (a, b, c, d) =>
      let fv :=
        if i < 16 then (b &&& c) ||| ((b ^^^ 0xffffffff) &&& d)
        else if i < 32 then (d &&& b) ||| ((d ^^^ 0xffffffff) &&& c)
        else if i < 48 then b ^^^ c ^^^ d
        else c ^^^ (b ||| (d ^^^ 0xffffffff))
      let g :=
        if i < 16 then i
        else if i < 32 then (5 * i + 1) % 16
        else if i < 48 then (3 * i + 5) % 16
        else (7 * i) % 16
      let t := mask32 (a + fv + md5K.getD i 0 + m.getD g 0)
      md5Rounds m n (i + 1) (d, mask32 (b + rotl32 (md5S.getD i 0) t), b, c)

/-- MD5 compression of one 64-byte block into the chaining state. -/
def md5Compress (st : Nat × Nat × Nat × Nat) (block : List Nat) :
    Nat × Nat × Nat × Nat :=
  let r := md5Rounds (leWords4 block) 64 0 st
  (mask32 (st.1 + r.1), mask32 (st.2.1 + r.2.1), mask32 (st.2.2.1 + r.2.2.1),
   mask32 (st.2.2.2 + r.2.2.2))

/-- Fold MD5 compression over consecutive 64-byte blocks (fuelled). -/
def md5Blocks : Nat → Nat × Nat × Nat × Nat → List Nat → Nat × Nat × Nat × Nat
  | 0, st, _ => st
  | _, st, [] => st
  | f + 1, st, l => md5Blocks f (md5Compress st (l.take 64)) (l.drop 64)

/-- MD5 of a byte string, as the 16-byte digest. -/
def md5 (msg : List Nat) : List Nat :=
  let p := padLE64 msg
  let h := md5Blocks p.length (0x67452301, 0xefcdab89, 0x98badcfe, 0x10325476) p
  w32le h.1 ++ w32le h.2.1 ++ w32le h.2.2.1 ++ w32le h.2.2.2

/-- Right rotation of a 32-bit word by `s` bits. -/
def rotr32 (s x : Nat) : Nat := mask32 ((x >>> s) ||| (x <<< (32 - s)))

/-- The 64 SHA-256 round constants. -/
def sha256K : List Nat := [
  1116352408, 1899447441, 3049323471, 3921009573, 961987163,
  1508970993, 2453635748, 2870763221, 3624381080, 310598401,
  607225278, 1426881987, 1925078388, 2162078206, 2614888103,
  3248222580, 3835390401, 4022224774, 264347078, 604807628,
  770255983, 1249150122, 1555081692, 1996064986, 2554220882,
  2821834349, 2952996808, 3210313671, 3336571891, 3584528711,
  113926993, 338241895, 666307205, 773529912, 1294757372,
  1396182291, 1695183700, 1986661051, 2177026350, 2456956037,
  2730485921, 2820302411, 3259730800, 3345764771, 3516065817,
  3600352804, 4094571909, 275423344, 430227734, 506948616,
  659060556, 883997877, 958139571, 1322822218, 1537002063,
  1747873779, 1955562222, 2024104815, 2227730452, 2361852424,
  2428436474, 2756734187, 3204031479, 3329325298]

/-- An 8-word hash chaining state. -/
abbrev Sha2State := Nat × Nat × Nat × Nat × Nat × Nat × Nat × Nat

/-- SHA-256 message-schedule extension, most recent word first. -/
def sha256ExtendRev : Nat → List Nat → List Nat
  | 0, acc => acc
  | n + 1, acc =>
      let x15 := acc.getD 14 0
      let x2 := acc.getD 1 0
      let s0 := rotr32 7 x15 ^^^ rotr32 18 x15 ^^^ (x15 >>> 3)
      let s1 := rotr32 17 x2 ^^^ rotr32 19 x2 ^^^ (x2 >>> 10)
      sha256ExtendRev n (mask32 (acc.getD 15 0 + s0 + acc.getD 6 0 + s1) :: acc)

/-- The 64 SHA-256 rounds over a schedule word list. -/
def sha256Rounds : Nat → Sha2State → List Nat → Sha2State
  | _, st, [] => st
  | i, (a, b, c, d, e, f, g, h), w :: ws =>
      let S1 := rotr32 6 e ^^^ rotr32 11 e ^^^ rotr32 25 e
      let ch := (e &&& f) ^^^ ((e ^^^ 0xffffffff) &&& g)
      let t1 := mask32 (h + S1 + ch + sha256K.getD i 0 + w)
      let S0 := rotr32 2 a ^^^ rotr32 13 a ^^^ rotr32 22 a
      let mj := (a &&& b) ^^^ (a &&& c) ^^^ (b &&& c)
      let t2 := mask32 (S0 + mj)
      sha256Rounds (i + 1) (mask32 (t1 + t2), a, b, c, mask32 (d + t1), e, f, g) ws

/-- Componentwise 32-bit addition of two 8-word states. -/
def addState32 (x y : Sha2State) : Sha2State :=
  (mask32 (x.1 + y.1), mask32 (x.2.1 + y.2.1), mask32 (x.2.2.1 + y.2.2.1),
   mask32 (x.2.2.2.1 + y.2.2.2.1), mask32 (x.2.2.2.2.1 + y.2.2.2.2.1),
   mask32 (x.2.2.2.2.2.1 + y.2.2.2.2.2.1),
   mask32 (x.2.2.2.2.2.2.1 + y.2.2.2.2.2.2.1),
   mask32 (x.2.2.2.2.2.2.2 + y.2.2.2.2.2.2.2))

/-- SHA-256 compression of one 64-byte block into the chaining state. -/
def sha256Compress (st : Sha2State) (block : List Nat) : Sha2State :=
  let ws := (sha256ExtendRev 48 (beWords4 block).reverse).reverse
  addState32 st (sha256Rounds 0 st ws)

/-- Fold SHA-256 compression over consecutive 64-byte blocks (fuelled). -/
def sha256Blocks : Nat → Sha2State → List Nat → Sha2State
  | 0, st, _ => st
  | _, st, [] => st
  | f + 1, st, l => sha256Blocks f (sha256Compress st (l.take 64)) (l.drop 64)

/-- SHA-256 of a byte string, as the 32-byte digest. -/
def sha256 (msg : List Nat) : List Nat :=
  let p := padBE64 msg
  let h := sha256Blocks p.length
      (0x6a09e667, 0xbb67ae85, 0x3c6ef372, 0xa54ff53a,
       0x510e527f, 0x9b05688c, 0x1f83d9ab, 0x5be0cd19) p
  w32be h.1 ++ w32be h.2.1 ++ w32be h.2.2.1 ++ w32be h.2.2.2.1 ++
    w32be h.2.2.2.2.1 ++ w32be h.2.2.2.2.2.1 ++ w32be h.2.2.2.2.2.2.1 ++
    w32be h.2.2.2.2.2.2.2

/-- 64-bit truncation, modelling arithmetic on 64-bit words. -/
def mask64 (x : Nat) : Nat := x &&& 0xffffffffffffffff

/-- Right rotation of a 64-bit word by `s` bits. -/
def rotr64 (s x : Nat) : Nat := mask64 ((x >>> s) ||| (x <<< (64 - s)))

/-- Group a byte list into big-endian 64-bit words, eight bytes at a time. -/
def beWords8 : List Nat → List Nat
  | b0 :: b1 :: b2 :: b3 :: b4 :: b5 :: b6 :: b7 :: rest =>
      ((b0 <<< 56) ||| (b1 <<< 48) ||| (b2 <<< 40) ||| (b3 <<< 32) |||
       (b4 <<< 24) ||| (b5 <<< 16) ||| (b6 <<< 8) ||| b7) :: beWords8 rest
  | _ => []

/-- SHA-512 padding: append `0x80`, zeros up to 112 mod 128, then the bit
length as a 16-byte big-endian field. -/
def padBE128 (msg : List Nat) : List Nat :=
  msg ++ 0x80 :: List.replicate ((239 - msg.length % 128) % 128) 0
      ++ w64be (msg.length * 8 >>> 64) ++ w64be (msg.length * 8)

/-- The 80 SHA-512 round constants. -/
def sha512K : List Nat := [
  4794697086780616226, 8158064640168781261, 13096744586834688815,
  16840607885511220156, 4131703408338449720, 6480981068601479193,
  10538285296894168987, 12329834152419229976, 15566598209576043074,
  1334009975649890238, 2608012711638119052, 6128411473006802146,
  8268148722764581231, 9286055187155687089, 11230858885718282805,
  13951009754708518548, 16472876342353939154, 17275323862435702243,
  1135362057144423861, 2597628984639134821, 3308224258029322869,
  5365058923640841347, 6679025012923562964, 8573033837759648693,
  10970295158949994411, 12119686244451234320, 12683024718118986047,
  13788192230050041572, 14330467153632333762, 15395433587784984357,
  489312712824947311, 1452737877330783856, 2861767655752347644,
  3322285676063803686, 5560940570517711597, 5996557281743188959,
  7280758554555802590, 8532644243296465576, 9350256976987008742,
  10552545826968843579, 11727347734174303076, 12113106623233404929,
  14000437183269869457, 14369950271660146224, 15101387698204529176,
  15463397548674623760, 17586052441742319658, 1182934255886127544,
  1847814050463011016, 2177327727835720531, 2830643537854262169,
  3796741975233480872, 4115178125766777443, 5681478168544905931,
  6601373596472566643, 7507060721942968483, 8399075790359081724,
  8693463985226723168, 9568029438360202098, 10144078919501101548,
  10430055236837252648, 11840083180663258601, 13761210420658862357,
  14299343276471374635, 14566680578165727644, 15097957966210449927,
  16922976911328602910, 17689382322260857208, 500013540394364858,
  748580250866718886, 1242879168328830382, 1977374033974150939,
  2944078676154940804, 3659926193048069267, 4368137639120453308,
  4836135668995329356, 5532061633213252278, 6448918945643986474,
  6902733635092675308, 7801388544844847127]

/-- SHA-512 message-schedule extension, most recent word first. -/
def sha512ExtendRev : Nat → List Nat → List Nat
  | 0, acc => acc
  | n + 1, acc =>
      let x15 := acc.getD 14 0
      let x2 := acc.getD 1 0
      let s0 := rotr64 1 x15 ^^^ rotr64 8 x15 ^^^ (x15 >>> 7)
      let s1 := rotr64 19 x2 ^^^ rotr64 61 x2 ^^^ (x2 >>> 6)
      sha512ExtendRev n (mask64 (acc.getD 15 0 + s0 + acc.getD 6 0 + s1) :: acc)

/-- The 80 SHA-512 rounds over a schedule word list. -/
def sha512Rounds : Nat → Sha2State → List Nat → Sha2State
  | _, st, [] => st
  | i, (a, b, c, d, e, f, g, h), w :: ws =>
      let S1 := rotr64 14 e ^^^ rotr64 18 e ^^^ rotr64 41 e
      let ch := (e &&& f) ^^^ ((e ^^^ 0xffffffffffffffff) &&& g)
      let t1 := mask64 (h + S1 + ch + sha512K.getD i 0 + w)
      let S0 := rotr64 28 a ^^^ rotr64 34 a ^^^ rotr64 39 a
      let mj := (a &&& b) ^^^ (a &&& c) ^^^ (b &&& c)
      let t2 := mask64 (S0 + mj)
      sha512Rounds (i + 1) (mask64 (t1 + t2), a, b, c, mask64 (d + t1), e, f, g) ws

/-- Componentwise 64-bit addition of two 8-word states. -/
def addState64 (x y : Sha2State) : Sha2State :=
  (mask64 (x.1 + y.1), mask64 (x.2.1 + y.2.1), mask64 (x.2.2.1 + y.2.2.1),
   mask64 (x.2.2.2.1 + y.2.2.2.1), mask64 (x.2.2.2.2.1 + y.2.2.2.2.1),
   mask64 (x.2.2.2.2.2.1 + y.2.2.2.2.2.1),
   mask64 (x.2.2.2.2.2.2.1 + y.2.2.2.2.2.2.1),
   mask64 (x.2.2.2.2.2.2.2 + y.2.2.2.2.2.2.2))

/-- SHA-512 compression of one 128-byte block into the chaining state. -/
def sha512Compress (st : Sha2State) (block : List Nat) : Sha2State :=
  let ws := (sha512ExtendRev 64 (beWords8 block).reverse).reverse
  addState64 st (sha512Rounds 0 st ws)

/-- Fold SHA-512 compression over consecutive 128-byte blocks (fuelled). -/
def sha512Blocks : Nat → Sha2State → List Nat → Sha2State
  | 0, st, _ => st
  | _, st, [] => st
  | f + 1, st, l => sha512Blocks f (sha512Compress st (l.take 128)) (l.drop 128)

/-- SHA-512 of a byte string, as the 64-byte digest. -/
def sha512 (msg : List Nat) : List Nat :=
  let p := padBE128 msg
  let h := sha512Blocks p.length
      (0x6a09e667f3bcc908, 0xbb67ae8584caa73b, 0x3c6ef372fe94f82b,
       0xa54ff53a5f1d36f1, 0x510e527fade682d1, 0x9b05688c2b3e6c1f,
       0x1f83d9abfb41bd6b, 0x5be0cd19137e2179) p
  w64be h.1 ++ w64be h.2.1 ++ w64be h.2.2.1 ++ w64be h.2.2.2.1 ++
    w64be h.2.2.2.2.1 ++ w64be h.2.2.2.2.2.1 ++ w64be h.2.2.2.2.2.2.1 ++
    w64be h.2.2.2.2.2.2.2

/-- The ASCII byte string of a Lean string (all characters below 128). -/
def asciiBytes (s : String) : List Nat := s.data.map Char.toNat

/-- The hash modes `pyoath` accepts for its `Mode` parameter
(`hashlib.sha1`, `hashlib.sha256`, `hashlib.sha512`, `hashlib.md5`). -/
inductive Mode
  | sha1
  | sha256
  | sha512
  | md5
deriving DecidableEq

/-- The underlying hash function of a mode. -/
def hashOf : Mode → List Nat → List Nat
  | .sha1 => sha1
  | .sha256 => sha256
  | .sha512 => sha512
  | .md5 => md5

/-- The HMAC block size of a mode, as used by Python's `hmac` module. -/
def Mode.blockSize : Mode → Nat
  | .sha512 => 128
  | _ => 64

/-- `_HMAC(K, C, Mode)`: `hmac.new(K, C, Mode).digest()`.  Keys longer than
the block size are first hashed; the key is then zero-padded to the block
size and combined with the `0x36`/`0x5c` pads. -/
def HMAC (K C : List Nat) (M : Mode := .sha1) : List Nat :=
  let bs := M.blockSize
  let K0 := if bs < K.length then hashOf M K else K
  let Kp := K0 ++ List.replicate (bs - K0.length) 0
  hashOf M ((Kp.map fun b => b ^^^ 0x5c) ++
    hashOf M ((Kp.map fun b => b ^^^ 0x36) ++ C))

/-- The big-endian integer value of a byte string
(`rightmost chr == LSB`, as `_StToNum`'s doc puts it). -/
def beVal (S : List Nat) : Nat := S.foldl (fun acc b => acc * 256 + b) 0

/-- `_StToNum(S)`: `struct.unpack('>L', S)[0]`.  The format `'>L'` demands a
string of exactly 4 bytes and raises `struct.error` otherwise, hence the
`Option`. -/
def StToNum (S : List Nat) : Option Nat :=
  if S.length = 4 then some (beVal S) else none

/-- `_DT(String)`: dynamic truncation of an HMAC value.  `String[-1::1]` on
an empty bytestring yields an empty string and `ord` then raises, hence
`none` on `[]`; a slice `String[Offset:Offset+4]` shorter than 4 bytes makes
`_StToNum` raise. -/
def DT (s : List Nat) : Option Nat :=
  match s.getLast? with
  | none => none
  | some last =>
      let Offset := last &&& 0xf
      let P := (s.drop Offset).take 4
      (StToNum P).map fun Bits => Bits &&& 0x7fffffff

/-- Decimal digits of `n`, least significant first (fuelled; `n` itself is
always enough fuel). -/
def digitsRevAux : Nat → Nat → List Nat
  | 0, _ => []
  | f + 1, n => if n = 0 then [] else n % 10 :: digitsRevAux f (n / 10)

/-- Python's `str` on a non-negative integer: its decimal rendering. -/
def natToStr (n : Nat) : String :=
  if n = 0 then "0"
  else String.mk (((digitsRevAux n n).map fun d => Char.ofNat (48 + d)).reverse)

/-- Python's `str.zfill(w)` on a digit string: left-pad with `'0'` to width
`w` (no-op when the string is already at least that wide). -/
def zfill (s : String) (w : Nat) : String :=
  String.mk (List.replicate (w - s.data.length) '0' ++ s.data)

/-- The code-reducer half of `_Truncate`: `str(Snum % (10 ** Digit))` then
`.zfill(Digit)`. -/
def reduceCode (Snum Digit : Nat) : String :=
  zfill (natToStr (Snum % 10 ^ Digit)) Digit

/-- `_Truncate(HS, Digit)`: dynamic truncation followed by reduction modulo
`10 ** Digit` and zero-padding. -/
def Truncate (HS : List Nat) (Digit : Nat := 6) : Option String :=
  (DT HS).map fun Snum => reduceCode Snum Digit

/-- `struct.pack('>Q', C)[-8:]`: the 8-byte big-endian packing of the
counter.  `struct.error` is raised when `C` is negative or at least `2^64`;
the `[-8:]` slice of the 8-byte result is the identity. -/
def pack8BE (C : Int) : Option (List Nat) :=
  if C < 0 ∨ (2 : Int) ^ 64 ≤ C then none else some (w64be C.toNat)

/-- `HOTP(K, C, Digit, Mode)` (RFC 4226, Section 5.3): pack the counter,
HMAC it under the secret, then dynamically truncate and reduce. -/
def HOTP (K : List Nat) (C : Int) (Digit : Nat := 6) (M : Mode := .sha1) :
    Option String :=
  (pack8BE C).bind fun C_bytestr => Truncate (HMAC K C_bytestr M) Digit

/-- Bit length of a natural number (fuelled; `n` is always enough fuel). -/
def bitlenAux : Nat → Nat → Nat
  | 0, _ => 0
  | f + 1, n => if n = 0 then 0 else bitlenAux f (n >>> 1) + 1

/-- Bit length of a natural number. -/
def bitlen (n : Nat) : Nat := bitlenAux n n

/-- Quotient, remainder and denominator of the exact rational `a / (b*2^e)`:
for `e ≥ 0` divide `a` by `b <<< e`, otherwise divide `a <<< (-e)` by `b`. -/
def scaledDivMod (a b : Nat) (e : Int) : Nat × Nat × Nat :=
  if 0 ≤ e then
    let d := b <<< e.toNat
    (a / d, a % d, d)
  else
    let n := a <<< (-e).toNat
    (n / b, n % b, b)

/-- Round the exact rational `a / (b*2^e)` to the nearest integer, ties to
even. -/
def roundAt (a b : Nat) (e : Int) : Nat :=
  let (q, r, d) := scaledDivMod a b e
  if 2 * r < d then q
  else if d < 2 * r then q + 1
  else if q % 2 = 0 then q else q + 1

/-- Modelled from CPython 3 semantics of `int(a / b)` for naturals `a`, `b`
with `b ≠ 0`: true division produces the IEEE-754 binary64 value nearest to
`a/b` (round to nearest, ties to even, 53-bit significand), which `int`
truncates toward zero; `none` models the `OverflowError` raised when the
quotient exceeds the binary64 range. -/
def floatDivNat (a b : Nat) : Option Nat :=
  if a = 0 then some 0 else
  let e0 : Int := (bitlen a : Int) - (bitlen b : Int) - 53
  let e1 : Int := if (scaledDivMod a b e0).1 < 2 ^ 53 then e0 else e0 + 1
  let m0 := roundAt a b e1
  let me : Nat × Int := if m0 = 2 ^ 53 then (2 ^ 52, e1 + 1) else (m0, e1)
  if 972 ≤ me.2 then none
  else some (if 0 ≤ me.2 then me.1 <<< me.2.toNat else me.1 >>> (-me.2).toNat)

/-- Modelled from CPython 3 semantics of `int(a / b)` on integers: division
by zero raises (`none`); otherwise the sign is the quotient's sign and the
magnitude is the truncated correctly-rounded binary64 quotient. -/
def pyTruncDiv (a b : Int) : Option Int :=
  if b = 0 then none
  else (floatDivNat a.natAbs b.natAbs).map fun m =>
    if (0 ≤ a ∧ 0 ≤ b) ∨ (a < 0 ∧ b < 0) then (m : Int) else -(m : Int)

/-- `TOTP(K, X, Digit, Mode)` (RFC 6238, Section 4.2) with the clock reading
`int(time.time())` made an explicit argument `unix_time`:
`unix_step = int(unix_time / X)` followed by `HOTP(K, unix_step, ...)`. -/
def TOTP (K : List Nat) (X : Int) (Digit : Nat) (M : Mode)
    (unix_time : Int) : Option String :=
  (pyTruncDiv unix_time X).bind fun unix_step => HOTP K unix_step Digit M

/-- The digest size in bytes of each hash mode
(20 for SHA-1, 32 for SHA-256, 64 for SHA-512, 16 for MD5). -/
def digestLen : Mode → Nat
  | .sha1 => 20
  | .sha256 => 32
  | .sha512 => 64
  | .md5 => 16

/-- The RFC 4226 / RFC 6238 shared secret: the ASCII bytes of
`"12345678901234567890"`. -/
def rfcSecret : List Nat := asciiBytes "12345678901234567890"

example : sha512 (asciiBytes "abc") =
    [0xdd, 0xaf, 0x35, 0xa1, 0x93, 0x61, 0x7a, 0xba, 0xcc, 0x41, 0x73, 0x49,
     0xae, 0x20, 0x41, 0x31, 0x12, 0xe6, 0xfa, 0x4e, 0x89, 0xa9, 0x7e, 0xa2,
     0x0a, 0x9e, 0xee, 0xe6, 0x4b, 0x55, 0xd3, 0x9a, 0x21, 0x92, 0x99, 0x2a,
     0x27, 0x4f, 0xc1, 0xa8, 0x36, 0xba, 0x3c, 0x23, 0xa3, 0xfe, 0xeb, 0xbd,
     0x45, 0x4d, 0x44, 0x23, 0x64, 0x3c, 0xe8, 0x0e, 0x2a, 0x9a, 0xc9, 0x4f,
     0xa5, 0x4c, 0xa4, 0x9f] := by decide

example : sha1 (asciiBytes "abc") =
    [0xa9, 0x99, 0x3e, 0x36, 0x47, 0x06, 0x81, 0x6a, 0xba, 0x3e,
     0x25, 0x71, 0x78, 0x50, 0xc2, 0x6c, 0x9c, 0xd0, 0xd8, 0x9d] := by decide

example : sha1 [] =
    [0xda, 0x39, 0xa3, 0xee, 0x5e, 0x6b, 0x4b, 0x0d, 0x32, 0x55,
     0xbf, 0xef, 0x95, 0x60, 0x18, 0x90, 0xaf, 0xd8, 0x07, 0x09] := by decide

example : md5 (asciiBytes "abc") =
    [0x90, 0x01, 0x50, 0x98, 0x3c, 0xd2, 0x4f, 0xb0,
     0xd6, 0x96, 0x3f, 0x7d, 0x28, 0xe1, 0x7f, 0x72] := by decide

example : md5 [] =
    [0xd4, 0x1d, 0x8c, 0xd9, 0x8f, 0x00, 0xb2, 0x04,
     0xe9, 0x80, 0x09, 0x98, 0xec, 0xf8, 0x42, 0x7e] := by decide

example : sha256 (asciiBytes "abc") =
    [0xba, 0x78, 0x16, 0xbf, 0x8f, 0x01, 0xcf, 0xea, 0x41, 0x41, 0x40, 0xde,
     0x5d, 0xae, 0x22, 0x23, 0xb0, 0x03, 0x61, 0xa3, 0x96, 0x17, 0x7a, 0x9c,
     0xb4, 0x10, 0xff, 0x61, 0xf2, 0x00, 0x15, 0xad] := by decide

/-! Helper lemmas shared by the claim theorems. -/

theorem sha1_length (m : List Nat) : (sha1 m).length = 20 := by
  simp [sha1, w32be]

theorem md5_length (m : List Nat) : (md5 m).length = 16 := by
  simp [md5, w32le]

theorem sha256_length (m : List Nat) : (sha256 m).length = 32 := by
  simp [sha256, w32be]

theorem sha512_length (m : List Nat) : (sha512 m).length = 64 := by
  simp [sha512, w64be]

theorem hashOf_length (M : Mode) (m : List Nat) :
    (hashOf M m).length = digestLen M := by
  cases M <;>
    simp [hashOf, digestLen, sha1_length, sha256_length, sha512_length,
      md5_length]

theorem HMAC_length (K C : List Nat) (M : Mode) :
    (HMAC K C M).length = digestLen M := by
  simp [HMAC, hashOf_length]

theorem beVal_foldl_lt (S : List Nat) (h : ∀ b ∈ S, b < 256) :
    ∀ acc, S.foldl (fun a b => a * 256 + b) acc < (acc + 1) * 256 ^ S.length := by
  induction S with
  | nil => intro acc; simp
  | cons b S ih =>
    intro acc
    have hb : b < 256 := h b (List.mem_cons_self b S)
    have ih' := ih (fun x hx => h x (List.mem_cons_of_mem b hx)) (acc * 256 + b)
    have hstep : (acc * 256 + b + 1) * 256 ^ S.length ≤
        (acc + 1) * 256 ^ (b :: S).length := by
      have h1 : acc * 256 + b + 1 ≤ (acc + 1) * 256 := by nlinarith
      calc (acc * 256 + b + 1) * 256 ^ S.length
          ≤ (acc + 1) * 256 * 256 ^ S.length := Nat.mul_le_mul_right _ h1
        _ = (acc + 1) * 256 ^ (b :: S).length := by
            simp [List.length_cons, pow_succ]; ring
    calc List.foldl (fun a b => a * 256 + b) acc (b :: S)
        = List.foldl (fun a b => a * 256 + b) (acc * 256 + b) S := rfl
      _ < (acc * 256 + b + 1) * 256 ^ S.length := ih'
      _ ≤ (acc + 1) * 256 ^ (b :: S).length := hstep

theorem beVal_lt (S : List Nat) (h : ∀ b ∈ S, b < 256) :
    beVal S < 256 ^ S.length := by
  simpa [beVal] using beVal_foldl_lt S h 0

/-- Characterization of `DT` when the window fits: it succeeds and returns
the masked big-endian value of the 4-byte window. -/
theorem DT_eq_some (s : List Nat) (last : Nat) (hl : s.getLast? = some last)
    (h4 : (last &&& 0xf) + 4 ≤ s.length) :
    DT s = some (beVal ((s.drop (last &&& 0xf)).take 4) &&& 0x7fffffff) := by
  have hlen : ((s.drop (last &&& 0xf)).take 4).length = 4 := by
    simp only [List.length_take, List.length_drop]
    omega
  simp [DT, hl, StToNum, hlen]

theorem Truncate_isSome_of_length (HS : List Nat) (h : 20 ≤ HS.length)
    (D : Nat) : (Truncate HS D).isSome = true := by
  have hne : HS ≠ [] := by
    intro e
    rw [e] at h
    simp at h
  obtain ⟨last, hl⟩ :=
    Option.isSome_iff_exists.mp (List.getLast?_isSome.mpr hne)
  have hoff : (last &&& 0xf) + 4 ≤ HS.length := by
    have h15 : last &&& 0xf ≤ 0xf := Nat.and_le_right
    omega
  rw [Truncate, DT_eq_some HS last hl hoff]
  rfl

theorem digitsRevAux_length_le (D : Nat) :
    ∀ f n, n < 10 ^ D → (digitsRevAux f n).length ≤ D := by
  induction D with
  | zero =>
    intro f n h
    have hn : n = 0 := by omega
    subst hn
    cases f <;> simp [digitsRevAux]
  | succ D ih =>
    intro f n h
    cases f with
    | zero => simp [digitsRevAux]
    | succ f =>
      by_cases h0 : n = 0
      · simp [digitsRevAux, h0]
      · have hdiv : n / 10 < 10 ^ D := by
          rw [Nat.div_lt_iff_lt_mul (by norm_num)]
          calc n < 10 ^ (D + 1) := h
            _ = 10 ^ D * 10 := by ring
        simpa [digitsRevAux, h0] using Nat.succ_le_succ (ih f (n / 10) hdiv)

theorem natToStr_length_le (n D : Nat) (h : n < 10 ^ D) (hD : 1 ≤ D) :
    (natToStr n).length ≤ D := by
  unfold natToStr
  split
  · simpa using hD
  · simpa using digitsRevAux_length_le D n n h

theorem zfill_length (s : String) (w : Nat) (h : s.length ≤ w) :
    (zfill s w).length = w := by
  simp [zfill]
  omega

theorem reduceCode_length (S D : Nat) (hD : 1 ≤ D) :
    (reduceCode S D).length = D := by
  refine zfill_length _ _ (natToStr_length_le _ D ?_ hD)
  exact Nat.mod_lt _ (Nat.pos_pow_of_pos D (by norm_num))

theorem HOTP_code_shape (K : List Nat) (C : Int) (D : Nat) (M : Mode)
    (code : String) (h : HOTP K C D M = some code) :
    ∃ Snum, code = reduceCode Snum D := by
  unfold HOTP at h
  cases hp : pack8BE C with
  | none => rw [hp] at h; simp at h
  | some cb =>
    rw [hp] at h
    simp only [Option.some_bind, Truncate, Option.map_eq_some'] at h
    obtain ⟨Snum, _, hs⟩ := h
    exact ⟨Snum, hs.symm⟩

/-! The claim theorems. -/

/-- C1: for the secret equal to the ASCII bytes of `"12345678901234567890"`,
hash mode SHA-1 and 6 digits, `HOTP` returns `"755224"` for counter 0,
`"287082"` for counter 1, and `"520489"` for counter 9 (RFC 4226 vectors). -/
theorem hotp_rfc4226_sha1_vectors :
    HOTP rfcSecret 0 6 Mode.sha1 = some "755224" ∧
    HOTP rfcSecret 1 6 Mode.sha1 = some "287082" ∧
    HOTP rfcSecret 9 6 Mode.sha1 = some "520489" := by decide

/-- C3 counterexample: under hash mode MD5 the 16-byte digest already fails
at counter 0 with the RFC secret: the digest's final nibble selects offset
15, the window `[15:19]` has a single byte, and `struct.unpack` raises, so
`HOTP` returns no code.  This refutes the claim that all four supported
modes complete without error for every in-range counter. -/
theorem hotp_md5_fails_at_counter_zero :
    HOTP rfcSecret 0 6 Mode.md5 = none := by decide

/-- C3 (amended): for the hash modes whose digests have at least 20 bytes —
SHA-1, SHA-256 and SHA-512, i.e. every supported mode except MD5 — `HOTP`
completes without error and returns a code for every secret `K` and every
counter in `[0, 2^64)`: the dynamic-truncation window never reads past the
end of the HMAC digest under those modes. -/
theorem hotp_total_for_sha_modes (K : List Nat) (C : Int) (D : Nat)
    (M : Mode) (hM : M ≠ Mode.md5) (h0 : 0 ≤ C) (h64 : C < 2 ^ 64) :
    (HOTP K C D M).isSome = true := by
  have hcond : ¬(C < 0 ∨ (2 : Int) ^ 64 ≤ C) := by push_neg; exact ⟨h0, h64⟩
  have hpack : pack8BE C = some (w64be C.toNat) := by
    unfold pack8BE
    rw [if_neg hcond]
  have hd : 20 ≤ (HMAC K (w64be C.toNat) M).length := by
    rw [HMAC_length]
    cases M with
    | md5 => exact absurd rfl hM
    | sha1 => norm_num [digestLen]
    | sha256 => norm_num [digestLen]
    | sha512 => norm_num [digestLen]
  simp only [HOTP, hpack, Option.some_bind]
  exact Truncate_isSome_of_length _ hd D

/-- Witness for C3 (amended) at the RFC secret, counter 0, SHA-1, 6 digits. -/
theorem hotp_total_for_sha_modes_witness :
    (HOTP rfcSecret 0 6 Mode.sha1).isSome = true :=
  hotp_total_for_sha_modes rfcSecret 0 6 Mode.sha1 (by decide) (by decide)
    (by decide)

/-- C4: at Unix time `2^53 + 1` with step `X = 1`, `TOTP` derives its
counter with Python float true division (`int(unix_time / X)`), which
rounds `2^53 + 1` down to `2^53`; integer floor division would give
`2^53 + 1`, and the two counters produce different codes.  The code
therefore does not compute `floor(t / X)` by integer floor-division. -/
theorem totp_truncates_float_division :
    TOTP rfcSecret 1 6 Mode.sha1 9007199254740993 =
      HOTP rfcSecret 9007199254740992 6 Mode.sha1 ∧
    Int.fdiv 9007199254740993 1 = 9007199254740993 ∧
    HOTP rfcSecret 9007199254740992 6 Mode.sha1 ≠
      HOTP rfcSecret 9007199254740993 6 Mode.sha1 := by decide

/-- C5: with the RFC secret, SHA-1, 8 digits and step 30, `TOTP` with the
clock fixed at Unix times 59, 1111111109 and 1111111111 returns the
RFC 6238 vectors `"94287082"`, `"07081804"` and `"14050471"`. -/
theorem totp_rfc6238_sha1_vectors :
    TOTP rfcSecret 30 8 Mode.sha1 59 = some "94287082" ∧
    TOTP rfcSecret 30 8 Mode.sha1 1111111109 = some "07081804" ∧
    TOTP rfcSecret 30 8 Mode.sha1 1111111111 = some "14050471" := by decide

/-- C8: the Unix times `2^54 + 2` and `2^54 + 3` lie in the same step-30
window in the floor sense — `floor(t1/2) = floor(t2/2) = 2^53 + 1` — yet
`TOTP` yields different codes for them, because `int(unix_time / X)` rounds
them through a binary64 float to the two different counters `2^53` and
`2^53 + 2`.  The window-stability claim fails on the code. -/
theorem totp_window_stability_fails :
    (18014398509481986 : Nat) / 2 = (18014398509481987 : Nat) / 2 ∧
    TOTP rfcSecret 2 6 Mode.sha1 18014398509481986 = some "860690" ∧
    TOTP rfcSecret 2 6 Mode.sha1 18014398509481987 = some "539565" ∧
    TOTP rfcSecret 2 6 Mode.sha1 18014398509481986 ≠
      TOTP rfcSecret 2 6 Mode.sha1 18014398509481987 := by decide

/-- C10: for every counter outside `[0, 2^64)` — negative or at least
`2^64` — the 8-byte big-endian packing step fails, and `HOTP` returns no
code: out-of-range counters are rejected, not wrapped modulo `2^64`. -/
theorem hotp_rejects_out_of_range_counter (K : List Nat) (C : Int) (D : Nat)
    (M : Mode) (h : C < 0 ∨ (2 : Int) ^ 64 ≤ C) :
    pack8BE C = none ∧ HOTP K C D M = none := by
  have hp : pack8BE C = none := by
    unfold pack8BE
    rw [if_pos h]
  exact ⟨hp, by simp only [HOTP, hp, Option.none_bind]⟩

/-- Witness for C10 at counter `-1`. -/
theorem hotp_rejects_out_of_range_counter_witness :
    pack8BE (-1) = none ∧ HOTP [] (-1) 6 Mode.sha1 = none :=
  hotp_rejects_out_of_range_counter [] (-1) 6 Mode.sha1 (by decide)

/-- C2: for every HMAC digest of valid bytes with length at least
`offset + 4` — where `offset` is the low-order 4 bits of the final byte —
dynamic truncation has `offset ≤ 15`, the 4-byte window at `offset` is a
32-bit quantity, and `DT` returns that window read as a big-endian unsigned
integer with its most significant bit masked to 0 (reduction modulo
`2^31`). -/
theorem dt_computes_masked_window (s : List Nat) (hb : ∀ b ∈ s, b < 256)
    (h4 : (s.getLast?.getD 0 &&& 0xf) + 4 ≤ s.length) :
    (s.getLast?.getD 0 &&& 0xf) ≤ 15 ∧
    beVal ((s.drop (s.getLast?.getD 0 &&& 0xf)).take 4) < 2 ^ 32 ∧
    DT s = some
      (beVal ((s.drop (s.getLast?.getD 0 &&& 0xf)).take 4) % 2 ^ 31) := by
  have hne : s ≠ [] := by
    rintro rfl
    simp at h4
  obtain ⟨last, hl⟩ :=
    Option.isSome_iff_exists.mp (List.getLast?_isSome.mpr hne)
  rw [hl] at h4 ⊢
  simp only [Option.getD_some] at h4 ⊢
  refine ⟨Nat.and_le_right, ?_, ?_⟩
  · have hsub : (s.drop (last &&& 0xf)).take 4 ⊆ s := fun x hx =>
      List.drop_subset _ s (List.take_subset _ _ hx)
    have hlt := beVal_lt _ (fun b hbm => hb b (hsub hbm))
    have hlen4 : ((s.drop (last &&& 0xf)).take 4).length = 4 := by
      simp only [List.length_take, List.length_drop]
      omega
    rw [hlen4] at hlt
    norm_num at hlt ⊢
    exact hlt
  · rw [DT_eq_some s last hl h4]
    congr 1
    have h31 : (0x7fffffff : Nat) = 2 ^ 31 - 1 := by norm_num
    rw [h31, Nat.and_pow_two_sub_one_eq_mod]

/-- Witness for C2 at the digest `[0, 0, 0, 0, 1]` (offset 1). -/
theorem dt_computes_masked_window_witness :
    (([0, 0, 0, 0, 1] : List Nat).getLast?.getD 0 &&& 0xf) ≤ 15 ∧
    beVal ((([0, 0, 0, 0, 1] : List Nat).drop
      (([0, 0, 0, 0, 1] : List Nat).getLast?.getD 0 &&& 0xf)).take 4) <
      2 ^ 32 ∧
    DT [0, 0, 0, 0, 1] = some
      (beVal ((([0, 0, 0, 0, 1] : List Nat).drop
        (([0, 0, 0, 0, 1] : List Nat).getLast?.getD 0 &&& 0xf)).take 4) %
        2 ^ 31) :=
  dt_computes_masked_window [0, 0, 0, 0, 1] (by decide) (by decide)

/-- C6: for every truncated value `S` and positive digit count `D`, the
code reducer returns the decimal rendering of `S mod 10^D` left-padded
with `'0'` to exactly `D` characters, and every code `HOTP` produces with
digit count `D` has length exactly `D`, leading zeros preserved. -/
theorem reduce_and_hotp_width (S D : Nat) (hD : 1 ≤ D) (K : List Nat)
    (C : Int) (M : Mode) (code : String) (hc : HOTP K C D M = some code) :
    reduceCode S D = zfill (natToStr (S % 10 ^ D)) D ∧
    (reduceCode S D).length = D ∧ code.length = D := by
  obtain ⟨Snum, rfl⟩ := HOTP_code_shape K C D M code hc
  exact ⟨rfl, reduceCode_length S D hD, reduceCode_length Snum D hD⟩

/-- Witness for C6 at `S = 42`, `D = 6` and the RFC HOTP vector for
counter 0. -/
theorem reduce_and_hotp_width_witness :
    reduceCode 42 6 = zfill (natToStr (42 % 10 ^ 6)) 6 ∧
    (reduceCode 42 6).length = 6 ∧ ("755224" : String).length = 6 :=
  reduce_and_hotp_width 42 6 (by decide) rfcSecret 0 Mode.sha1 "755224"
    (by decide)

/-- C7: whenever dynamic truncation succeeds, the truncated value lies in
`[0, 2^31 - 1]`, its bit 31 is 0, it equals the window's big-endian value
reduced modulo `2^31`, and every bit below 31 agrees with the unmasked
window value — the `0x7fffffff` mask clears only the single top bit. -/
theorem dt_value_is_31_bits (s : List Nat) (v : Nat) (h : DT s = some v) :
    v ≤ 2 ^ 31 - 1 ∧ v.testBit 31 = false ∧
    v = beVal ((s.drop (s.getLast?.getD 0 &&& 0xf)).take 4) % 2 ^ 31 ∧
    ∀ i < 31, v.testBit i =
      (beVal ((s.drop (s.getLast?.getD 0 &&& 0xf)).take 4)).testBit i := by
  unfold DT at h
  cases hl : s.getLast? with
  | none =>
    rw [hl] at h
    cases h
  | some last =>
    rw [hl] at h
    simp only [Option.map_eq_some'] at h
    obtain ⟨bits, hst, hv⟩ := h
    unfold StToNum at hst
    split at hst
    case isFalse => cases hst
    case isTrue hlen =>
      have hbits : bits = beVal ((s.drop (last &&& 0xf)).take 4) := by
        cases hst
        rfl
      subst hbits
      have h31 : (0x7fffffff : Nat) = 2 ^ 31 - 1 := by norm_num
      rw [h31, Nat.and_pow_two_sub_one_eq_mod] at hv
      subst hv
      simp only [Option.getD_some]
      have hlt : beVal ((s.drop (last &&& 0xf)).take 4) % 2 ^ 31 < 2 ^ 31 :=
        Nat.mod_lt _ (by norm_num)
      refine ⟨by omega, Nat.testBit_eq_false_of_lt hlt, trivial, ?_⟩
      intro i hi
      rw [Nat.testBit_mod_two_pow]
      simp [hi]

/-- Witness for C7 at the digest `[1, 2, 3, 4, 0]` (offset 0, value
`0x01020304`). -/
theorem dt_value_is_31_bits_witness :
    16909060 ≤ 2 ^ 31 - 1 ∧ Nat.testBit 16909060 31 = false ∧
    16909060 = beVal ((([1, 2, 3, 4, 0] : List Nat).drop
      (([1, 2, 3, 4, 0] : List Nat).getLast?.getD 0 &&& 0xf)).take 4) %
      2 ^ 31 ∧
    ∀ i < 31, Nat.testBit 16909060 i =
      (beVal ((([1, 2, 3, 4, 0] : List Nat).drop
        (([1, 2, 3, 4, 0] : List Nat).getLast?.getD 0 &&& 0xf)).take
        4)).testBit i :=
  dt_value_is_31_bits [1, 2, 3, 4, 0] 16909060 (by decide)

/-- C9: on a 20-byte digest whose final byte selects the maximum offset 15,
dynamic truncation reads exactly the window `[15:19]`, which is fully
contained in the digest (its length is 4), and succeeds. -/
theorem dt_max_offset_window_fits (s : List Nat) (h20 : s.length = 20)
    (hoff : s.getLast?.getD 0 &&& 0xf = 15) :
    DT s = some (beVal ((s.drop 15).take 4) &&& 0x7fffffff) ∧
    (DT s).isSome = true ∧ ((s.drop 15).take 4).length = 4 := by
  have hne : s ≠ [] := by
    rintro rfl
    simp at h20
  obtain ⟨last, hl⟩ :=
    Option.isSome_iff_exists.mp (List.getLast?_isSome.mpr hne)
  rw [hl] at hoff
  simp only [Option.getD_some] at hoff
  have h4 : (last &&& 0xf) + 4 ≤ s.length := by omega
  have hdt := DT_eq_some s last hl h4
  rw [hoff] at hdt
  refine ⟨hdt, by rw [hdt]; rfl, ?_⟩
  simp only [List.length_take, List.length_drop]
  omega

/-- Witness for C9 at a 20-byte digest of `0xab` bytes ending in `0x0f`. -/
theorem dt_max_offset_window_fits_witness :
    DT (List.replicate 19 0xab ++ [0x0f]) =
      some (beVal (((List.replicate 19 0xab ++ [0x0f] : List Nat).drop
        15).take 4) &&& 0x7fffffff) ∧
    (DT (List.replicate 19 0xab ++ [0x0f])).isSome = true ∧
    (((List.replicate 19 0xab ++ [0x0f] : List Nat).drop 15).take 4).length
      = 4 :=
  dt_max_offset_window_fits (List.replicate 19 0xab ++ [0x0f]) (by decide)
    (by decide)
